import Mathlib

/-
Verification development for `install-pacman-packages.py`.

The Python program is shallowly embedded below.  Pure helpers become Lean
functions; the mutable `pkg_dict` of shared `PackageBase` objects is modelled
as an arena (`PkgStore.nodes`) plus a name-to-index association list
(`PkgStore.index`), so that two names referencing the same node is index
equality.  External collaborators (package-query subprocesses, pacman state,
the archive descriptor inside each tar file, and the `pacman -U`/`pacman -S`
install actions) are supplied by an `Env` record of deterministic response
functions; each collaborator invocation is logged as an `Event`.  Recursion
that the Python runtime bounds only by its stack is given an explicit fuel
parameter; exhausting fuel is the embedding of non-termination
(`RErr.fuelOut`), and an uncaught Python exception (TypeError, KeyError,
IndexError, NotImplementedError) is `RErr.pyError`.
-/

set_option autoImplicit false

namespace InstallPacman

/-- Errors of the embedding: `fuelOut` models unbounded recursion
(`RecursionError` in Python), `pyError` models an uncaught Python
exception such as `TypeError` or `KeyError`. -/
inductive RErr
  | fuelOut
  | pyError
  deriving DecidableEq, Inhabited

/-- Decidable equality for `Except`, used to evaluate concrete runs. -/
instance exceptDecEq {ε α : Type} [DecidableEq ε] [DecidableEq α] :
    DecidableEq (Except ε α) := fun x y =>
  match x, y with
  | Except.ok a, Except.ok b =>
    if h : a = b then isTrue (by rw [h])
    else isFalse (fun hh => h (Except.ok.inj hh))
  | Except.error e, Except.error f =>
    if h : e = f then isTrue (by rw [h])
    else isFalse (fun hh => h (Except.error.inj hh))
  | Except.ok _, Except.error _ => isFalse (fun hh => Except.noConfusion hh)
  | Except.error _, Except.ok _ => isFalse (fun hh => Except.noConfusion hh)

/-! ## `distutils.version.LooseVersion`

`LooseVersion` splits a version string with the regex `(\d+ | [a-z]+ | \.)`:
maximal digit runs become integers, maximal lowercase-letter runs and the
text between matches (e.g. `-`) stay strings, and `.` separators are
dropped.  Comparison is Python list comparison: elementwise, deciding at the
first non-equal pair; comparing an `int` with a `str` raises `TypeError`
(modelled as `none`). -/

/-- One parsed component of a `LooseVersion`. -/
inductive VComp
  | num (n : Nat)
  | str (s : String)
  deriving DecidableEq, Inhabited

/-- Character classes of the `LooseVersion` tokenizer: digit runs (0),
lowercase-letter runs (1), a `.` separator (2), and any other text (3). -/
def vCharClass (c : Char) : Nat :=
  if c.isDigit then 0
  else if 'a' ≤ c ∧ c ≤ 'z' then 1
  else if c = '.' then 2
  else 3

/-- Group consecutive characters of the same class into runs. -/
def vRuns : List Char → List (Nat × List Char)
  | [] => []
  | c :: rest =>
    match vRuns rest with
    | [] => [(vCharClass c, [c])]
    | (cl, cs) :: more =>
      if vCharClass c = cl then (cl, c :: cs) :: more
      else (vCharClass c, [c]) :: (cl, cs) :: more

/-- Digit run to a natural number. -/
def digitsToNat (cs : List Char) : Nat :=
  cs.foldl (fun a c => a * 10 + (c.toNat - 48)) 0

/-- Parse a version string the way `LooseVersion.parse` does. -/
def looseParse (v : String) : List VComp :=
  (vRuns v.toList).filterMap fun r =>
    if r.1 = 0 then some (VComp.num (digitsToNat r.2))
    else if r.1 = 2 then none
    else some (VComp.str (String.mk r.2))

/-- Python `==` on two components (cross-type comparison is `False`). -/
def vcompEq : VComp → VComp → Bool
  | VComp.num n, VComp.num m => n = m
  | VComp.str s, VComp.str t => s = t
  | _, _ => false

/-- Python `<` on two components; `none` is the cross-type `TypeError`. -/
def vcompLt : VComp → VComp → Option Bool
  | VComp.num n, VComp.num m => some (decide (n < m))
  | VComp.str s, VComp.str t => some (decide (s < t))
  | _, _ => none

/-- Python list `<` on parsed versions: decide at the first non-equal pair,
a strict prefix is smaller, equal lists compare `False`. -/
def listLt : List VComp → List VComp → Option Bool
  | [], [] => some false
  | [], _ :: _ => some true
  | _ :: _, [] => some false
  | a :: as, b :: bs => if vcompEq a b then listLt as bs else vcompLt a b

/-! ## Data model -/

/-- The Python class of a node: `PackageBase` (bare error node),
`CachedPackage` (archive-sourced) or `OfficialPackage`. -/
inductive PkgKind
  | base
  | cached
  | official
  deriving DecidableEq, Inhabited

/-- `PackageRepository` enum (`official` / `local`). -/
inductive PackageRepository
  | official
  | localRepo
  deriving DecidableEq, Inhabited

/-- The distinct exception kinds stored in `error_info`; `msg` is what
Python's `str(e)` yields. -/
inductive PkgError
  | invalidFormat (msg : String)
  | cachedUnavailable (msg : String)
  | installActionFailed (msg : String)
  | officialNotInCache (msg : String)
  deriving DecidableEq, Inhabited

/-- Message carried by an error (Python `str(e)`). -/
def PkgError.msg : PkgError → String
  | PkgError.invalidFormat m => m
  | PkgError.cachedUnavailable m => m
  | PkgError.installActionFailed m => m
  | PkgError.officialNotInCache m => m

/-- Python `str()` of an `error_info` field (`str(None) = "None"`). -/
def pyStrErr : Option PkgError → String
  | none => "None"
  | some e => e.msg

/-- A package node (`PackageBase` and subclasses).  `installation_status`
uses the source's encoding: -2 dependency failed, -1 failed, 0 not
installed, 1 same version installed, 2 different version installed,
3 freshly installed, 4 reinstalled.  `path` is the archive path of a
`CachedPackage` (unused otherwise). -/
structure Pkg where
  kind : PkgKind
  name : String
  version : Option String
  architecture : Option String
  license : Option String
  repository : Option PackageRepository
  dependencies : List String
  errorInfo : Option PkgError
  installation_status : Int
  path : String
  deriving DecidableEq, Inhabited

/-- The resolved map `pkg_dict`: nodes live in an arena and names map to
arena indices, so aliased names sharing one Python object are names bound
to the same index. -/
structure PkgStore where
  nodes : List Pkg
  index : List (String × Nat)
  deriving DecidableEq, Inhabited

def emptyStore : PkgStore := ⟨[], []⟩

/-- `name in pkg_dict` / `pkg_dict[name]` lookup (later bindings shadow
earlier ones, matching Python dict overwrite). -/
def lookupName (st : PkgStore) (n : String) : Option Nat :=
  go st.index
where
  go : List (String × Nat) → Option Nat
    | [] => none
    | (k, v) :: rest => if k = n then some v else go rest

/-- Read the node at an arena index. -/
def getNode (st : PkgStore) (idx : Nat) : Pkg :=
  st.nodes.getD idx default

/-- Create a node, returning the new store and the node's index. -/
def addNode (st : PkgStore) (p : Pkg) : PkgStore × Nat :=
  ({ st with nodes := st.nodes ++ [p] }, st.nodes.length)

/-- Bind a name to an arena index (`pkg_dict[name] = pkg`). -/
def bindName (st : PkgStore) (n : String) (idx : Nat) : PkgStore :=
  { st with index := (n, idx) :: st.index }

/-- Mutate the node at an index in place. -/
def updateNode (st : PkgStore) (idx : Nat) (p : Pkg) : PkgStore :=
  { st with nodes := st.nodes.set idx p }

/-! ## External collaborators -/

/-- One collaborator invocation, recorded in order of occurrence. -/
inductive Event
  | queryInstalled (name : String)
  | queryOfficial (name : String)
  | queryProviders (name : String)
  | queryAlias (name : String)
  | pacmanIsInstalled (name : String)
  | installArchive (path : String) (forceFlag : Bool)
  | installRepo (name : String) (forceFlag : Bool)
  deriving DecidableEq, Inhabited

/-- Deterministic environment of external collaborators.

* `officialIds` — ids of `pacman.get_available()` (`packages_in_offical_repositories`).
* `cache` — the materialized `cached_packages` list of archive records.
* `installedCanonical` — `package-query -Qiif %n`: `some name` iff exit 0
  (the name stands for the output line the code indexes).
* `officialCanonical` — `package-query -Siif %n` likewise.
* `providers` — `package-query -Aiif %n`: `some lines` iff exit 0.
* `aliasQ` — `package-query -QASiif %n`: (exit code is 0?, stdout lines).
* `pacmanInstalled` — `pacman.is_installed` + `get_info`: `some version`
  iff the name is installed.
* `descriptor` — the `.PKGINFO` text of the archive at a path, `none` when
  opening/extracting fails.
* `runInstallArchive` / `runInstallRepo` — the install action:
  (exit code, captured stderr lines). -/
structure Env where
  officialIds : List String
  cache : List Pkg
  installedCanonical : String → Option String
  officialCanonical : String → Option String
  providers : String → Option (List String)
  aliasQ : String → Bool × List String
  pacmanInstalled : String → Option String
  descriptor : String → Option String
  runInstallArchive : String → Bool → Nat × List String
  runInstallRepo : String → Bool → Nat × List String

/-- An environment where every collaborator answers negatively. -/
def emptyEnv : Env where
  officialIds := []
  cache := []
  installedCanonical := fun _ => none
  officialCanonical := fun _ => none
  providers := fun _ => none
  aliasQ := fun _ => (true, [])
  pacmanInstalled := fun _ => none
  descriptor := fun _ => none
  runInstallArchive := fun _ _ => (0, [])
  runInstallRepo := fun _ _ => (0, [])

/-! ## `PackageBase.get_installation_status` and `get_cached_package` -/

/-- `PackageBase.get_installation_status`: refresh `installation_status`
from the installed state (1 same version, 2 different version, 0 absent). -/
def get_installation_status (env : Env) (p : Pkg) : Pkg × List Event :=
  match env.pacmanInstalled p.name with
  | some ver =>
    ({ p with installation_status := if some ver = p.version then 1 else 2 },
     [Event.pacmanIsInstalled p.name])
  | none => ({ p with installation_status := 0 }, [Event.pacmanIsInstalled p.name])

/-- `LooseVersion(a.version) < LooseVersion(b.version)`; a missing version
(only possible for records whose filename failed to parse, which can never
match a query by name) is a `TypeError`. -/
def versionLt (a b : Pkg) : Except RErr Bool :=
  match a.version, b.version with
  | some av, some bv =>
    match listLt (looseParse av) (looseParse bv) with
    | none => Except.error RErr.pyError
    | some x => Except.ok x
  | _, _ => Except.error RErr.pyError

/-- The records of the cache whose `name` equals the query. -/
def cacheMatches (cache : List Pkg) (n : String) : List Pkg :=
  cache.filter fun c => c.name = n

/-- The selection loop of `get_cached_package`: start from the first match
and replace the candidate whenever it compares `LooseVersion`-less than the
next record. -/
def pickBest : Pkg → List Pkg → Except RErr Pkg
  | best, [] => Except.ok best
  | best, m :: rest =>
    match versionLt best m with
    | Except.error e => Except.error e
    | Except.ok true => pickBest m rest
    | Except.ok false => pickBest best rest

/-- `get_cached_package(pkg_name)`: `none` when no record carries the name,
otherwise the best-versioned record, refreshed against the installed
state. -/
def get_cached_package (env : Env) (n : String) : Except RErr (Option Pkg × List Event) :=
  match cacheMatches env.cache n with
  | [] => Except.ok (none, [])
  | p :: rest =>
    match pickBest p (p :: rest) with
    | Except.error e => Except.error e
    | Except.ok best =>
      let r := get_installation_status env best
      Except.ok (some r.1, r.2)

/-! ## Archive descriptor parsing (`CachedPackage.determine_package_info`) -/

/-- Python `str.splitlines` restricted to `\n` (the only separator occurring
in descriptor text). -/
def pySplitlinesAux : List Char → List Char → List String
  | [], acc => if acc.isEmpty then [] else [String.mk acc.reverse]
  | '\n' :: rest, acc => String.mk acc.reverse :: pySplitlinesAux rest []
  | c :: rest, acc => pySplitlinesAux rest (c :: acc)

def pySplitlines (s : String) : List String :=
  pySplitlinesAux s.toList []

/-- Strip a literal character-list prefix, or fail. -/
def dropPrefixChars : List Char → List Char → Option (List Char)
  | [], rest => some rest
  | _ :: _, [] => none
  | p :: ps, c :: cs => if c = p then dropPrefixChars ps cs else none

/-- Match of `^<key> = (.+)$` against one line: the line must start with
`<key> = ` and at least one character must follow. -/
def matchKeyLine (key line : String) : Option String :=
  match dropPrefixChars (key ++ " = ").toList line.toList with
  | some [] => none
  | some rest => some (String.mk rest)
  | none => none

/-- `CachedPackage._parse_from_string`: the values of every `key = value`
line (Python returns `None`/a string/a list by count; the callers only use
the collected values, except that a repeated `arch`/`license` would become
a list — which the claims never exercise, see `determine_package_info`). -/
def parse_from_string (key content : String) : List String :=
  (pySplitlines content).filterMap (matchKeyLine key)

/-- The `re.sub(r'(.+?)(<|<=|>|>=){1}.*?$', r'\1', s)` constraint stripper:
keep the characters before the first `<` or `>` occurring at position ≥ 1;
a string without such an operator is unchanged. -/
def findOpIdx : List Char → Nat → Option Nat
  | [], _ => none
  | c :: rest, i =>
    if (c = '<' ∨ c = '>') ∧ 1 ≤ i then some i else findOpIdx rest (i + 1)

def strip_constraint (s : String) : String :=
  match findOpIdx s.toList 0 with
  | some i => String.mk (s.toList.take i)
  | none => s

/-- `CachedPackage._get_dependencies_from_alias`: strip the version
constraint, then run `package-query -QASiif %n`; on a non-zero exit the
code appends `out[-1]` (an `IndexError` when the output is empty),
otherwise the stripped name itself. -/
def get_dependencies_from_alias (env : Env) :
    List String → List Event × Except RErr (List String)
  | [] => ([], Except.ok [])
  | d :: rest =>
    let d' := strip_constraint d
    let q := env.aliasQ d'
    let ev := Event.queryAlias d'
    if q.1 then
      match get_dependencies_from_alias env rest with
      | (evs, Except.error e) => (ev :: evs, Except.error e)
      | (evs, Except.ok ds) => (ev :: evs, Except.ok (d' :: ds))
    else
      match q.2.getLast? with
      | none => ([ev], Except.error RErr.pyError)
      | some last =>
        match get_dependencies_from_alias env rest with
        | (evs, Except.error e) => (ev :: evs, Except.error e)
        | (evs, Except.ok ds) => (ev :: evs, Except.ok (last :: ds))

/-- Scan of `packages_in_offical_repositories` in
`CachedPackage.determine_repository`. -/
def findOfficial : List String → String → Bool
  | [], _ => false
  | id :: rest, n => if id = n then true else findOfficial rest n

/-- `CachedPackage.determine_repository`: `official` when the name occurs
in the official-repository index, else `local`. -/
def determine_repository (env : Env) (p : Pkg) : Pkg :=
  if findOfficial env.officialIds p.name then
    { p with repository := some PackageRepository.official }
  else
    { p with repository := some PackageRepository.localRepo }

/-- `CachedPackage.determine_package_info`: only for `local`-repository
nodes, read the `.PKGINFO` descriptor and populate
`dependencies`/`architecture`/`license`; any exception inside the `try`
(failed archive open, missing descriptor, `IndexError` in the alias
helper) is caught and recorded as `InvalidPacmanPackageError`. -/
def determine_package_info (env : Env) (p : Pkg) : Pkg × List Event :=
  let parseFail : Option PkgError :=
    some (PkgError.invalidFormat ("Failed to parse package file name '" ++ p.path ++ "'"))
  if p.repository = some PackageRepository.localRepo then
    match env.descriptor p.path with
    | none => ({ p with errorInfo := parseFail }, [])
    | some content =>
      let deps := parse_from_string "depend" content
      if deps.isEmpty then
        ({ p with dependencies := [],
                  architecture := (parse_from_string "arch" content).head?,
                  license := (parse_from_string "license" content).head? }, [])
      else
        match get_dependencies_from_alias env deps with
        | (evs, Except.error _) => ({ p with errorInfo := parseFail }, evs)
        | (evs, Except.ok ds) =>
          ({ p with dependencies := ds,
                    architecture := (parse_from_string "arch" content).head?,
                    license := (parse_from_string "license" content).head? }, evs)
  else (p, [])

/-! ## Node constructors -/

/-- `OfficialPackage.__init__`: repository `official`, then an immediate
installed-state refresh. -/
def mkOfficialPackage (env : Env) (n : String) : Pkg × List Event :=
  get_installation_status env
    { kind := PkgKind.official, name := n, version := none, architecture := none,
      license := none, repository := some PackageRepository.official,
      dependencies := [], errorInfo := none, installation_status := 0, path := "" }

/-- The bare `PackageBase` node carrying `CachedPackageUnavailable`. -/
def mkUnavailable (n : String) : Pkg :=
  { kind := PkgKind.base, name := n, version := none, architecture := none,
    license := none, repository := none, dependencies := [],
    errorInfo := some (PkgError.cachedUnavailable
      ("No cached package available for '" ++ n ++ "'")),
    installation_status := 0, path := "" }

/-! ## Resolution engine (`get_package_recursive`) -/

/-- Work items of the resolution recursion: resolve one name, run the
shared tail (lines 434-443: `determine_repository`,
`determine_package_info`, descend) on a node, or walk a dependency list. -/
inductive RTask
  | pkg (name : String)
  | tail (idx : Nat)
  | deps (names : List String)
  deriving DecidableEq, Inhabited

/-- First cache hit among the provider names (`for rpn in out: ...`). -/
def scanProviders (env : Env) : List String → Except RErr (Option Pkg × List Event)
  | [] => Except.ok (none, [])
  | rpn :: rest =>
    match get_cached_package env rpn with
    | Except.error e => Except.error e
    | Except.ok (some p, ev) => Except.ok (some p, ev)
    | Except.ok (none, _) => scanProviders env rest

/-- The body of `get_package_recursive`, fuel-indexed.  Faithful to the
source's branch structure, including the provider-path branch (lines
419-432) that on a cache hit does **not** register the node in the map. -/
def resolveGo (env : Env) : Nat → RTask → PkgStore → Except RErr (PkgStore × List Event)
  | 0, _, _ => Except.error RErr.fuelOut
  | fuel + 1, RTask.pkg pkg_name, st =>
    if (lookupName st pkg_name).isSome then Except.ok (st, [])
    else
      match get_cached_package env pkg_name with
      | Except.error e => Except.error e
      | Except.ok (some pkg, ev0) =>
        let a := addNode st pkg
        let st2 := bindName a.1 pkg_name a.2
        match resolveGo env fuel (RTask.tail a.2) st2 with
        | Except.error e => Except.error e
        | Except.ok (st3, t3) => Except.ok (st3, ev0 ++ t3)
      | Except.ok (none, _) =>
        let ev1 := [Event.queryInstalled pkg_name]
        match env.installedCanonical pkg_name with
        | some real_pkg_name =>
          match get_cached_package env real_pkg_name with
          | Except.error e => Except.error e
          | Except.ok (some pkg, ev2) =>
            let a := addNode st pkg
            let st2 := bindName (bindName a.1 pkg_name a.2) real_pkg_name a.2
            match resolveGo env fuel (RTask.tail a.2) st2 with
            | Except.error e => Except.error e
            | Except.ok (st3, t3) => Except.ok (st3, ev1 ++ ev2 ++ t3)
          | Except.ok (none, _) =>
            let ev2 := [Event.queryOfficial pkg_name]
            match env.officialCanonical pkg_name with
            | some real_off =>
              let po := mkOfficialPackage env real_off
              let a := addNode st po.1
              Except.ok (bindName (bindName a.1 pkg_name a.2) real_off a.2,
                         ev1 ++ ev2 ++ po.2)
            | none =>
              let a := addNode st (mkUnavailable pkg_name)
              Except.ok (bindName a.1 pkg_name a.2, ev1 ++ ev2)
        | none =>
          let ev2 := [Event.queryOfficial pkg_name]
          match env.officialCanonical pkg_name with
          | some real_off =>
            let po := mkOfficialPackage env real_off
            let a := addNode st po.1
            Except.ok (bindName (bindName a.1 pkg_name a.2) real_off a.2,
                       ev1 ++ ev2 ++ po.2)
          | none =>
            let ev3 := [Event.queryProviders pkg_name]
            match env.providers pkg_name with
            | some rpns =>
              match scanProviders env rpns with
              | Except.error e => Except.error e
              | Except.ok (some pkg, ev4) =>
                let a := addNode st pkg
                match resolveGo env fuel (RTask.tail a.2) a.1 with
                | Except.error e => Except.error e
                | Except.ok (st3, t3) =>
                  Except.ok (st3, ev1 ++ ev2 ++ ev3 ++ ev4 ++ t3)
              | Except.ok (none, ev4) =>
                let a := addNode st (mkUnavailable pkg_name)
                Except.ok (bindName a.1 pkg_name a.2, ev1 ++ ev2 ++ ev3 ++ ev4)
            | none =>
              let a := addNode st (mkUnavailable pkg_name)
              Except.ok (bindName a.1 pkg_name a.2, ev1 ++ ev2 ++ ev3)
  | fuel + 1, RTask.tail idx, st =>
    let p1 := determine_repository env (getNode st idx)
    let r := determine_package_info env p1
    let st1 := updateNode st idx r.1
    if r.1.errorInfo.isSome then Except.ok (st1, r.2)
    else if r.1.repository = some PackageRepository.localRepo then
      match resolveGo env fuel (RTask.deps r.1.dependencies) st1 with
      | Except.error e => Except.error e
      | Except.ok (st2, t2) => Except.ok (st2, r.2 ++ t2)
    else Except.ok (st1, r.2)
  | _ + 1, RTask.deps [], st => Except.ok (st, [])
  | fuel + 1, RTask.deps (d :: ds), st =>
    match resolveGo env fuel (RTask.pkg d) st with
    | Except.error e => Except.error e
    | Except.ok (st1, t1) =>
      match resolveGo env fuel (RTask.deps ds) st1 with
      | Except.error e => Except.error e
      | Except.ok (st2, t2) => Except.ok (st2, t1 ++ t2)

/-- `get_package_recursive(pkg_name, pkg_dict)`. -/
def get_package_recursive (env : Env) (fuel : Nat) (n : String) (st : PkgStore) :
    Except RErr (PkgStore × List Event) :=
  resolveGo env fuel (RTask.pkg n) st

/-- The resolution loop of `main` over all requested names. -/
def resolveAll (env : Env) (fuel : Nat) : List String → PkgStore → Except RErr (PkgStore × List Event)
  | [], st => Except.ok (st, [])
  | n :: rest, st =>
    match get_package_recursive env fuel n st with
    | Except.error e => Except.error e
    | Except.ok (st1, t1) =>
      match resolveAll env fuel rest st1 with
      | Except.error e => Except.error e
      | Except.ok (st2, t2) => Except.ok (st2, t1 ++ t2)

/-! ## Installation orchestrator (`install_package_recursive`) -/

/-- `CachedPackage.install(force)`: invoke `pacman -U` when the status is
0 (not installed) or 2 (different version) or `force` is set; `--force` is
added exactly when the status is 1 (same version installed).  A non-zero
exit sets status -1 with the captured stderr; success sets 4 (reinstall)
or 3 (fresh install). -/
def cached_install (env : Env) (p : Pkg) (force : Bool) : Pkg × List Event :=
  if p.installation_status = 0 ∨ p.installation_status = 2 ∨ force then
    let forceFlag := p.installation_status = 1
    let r := env.runInstallArchive p.path forceFlag
    let ev := [Event.installArchive p.path forceFlag]
    if r.1 ≠ 0 then
      ({ p with installation_status := -1,
                errorInfo := some (PkgError.installActionFailed
                  ("Failed to install package " ++ p.name ++ " " ++
                   pyStrOpt p.version ++ ": " ++ joinLines r.2)) }, ev)
    else if p.installation_status = 1 then
      ({ p with installation_status := 4 }, ev)
    else
      ({ p with installation_status := 3 }, ev)
  else (p, [])
where
  pyStrOpt : Option String → String
    | none => "None"
    | some s => s
  joinLines (l : List String) : String := String.intercalate "\n" l

/-- `OfficialPackage.install(force)`: always invokes `pacman -S` (the
`force` argument is unused by the source); `--force` is added exactly when
the status is 1. -/
def official_install (env : Env) (p : Pkg) (_force : Bool) : Pkg × List Event :=
  let forceFlag := p.installation_status = 1
  let r := env.runInstallRepo p.name forceFlag
  let ev := [Event.installRepo p.name forceFlag]
  if r.1 ≠ 0 then
    ({ p with installation_status := -1,
              errorInfo := some (PkgError.installActionFailed
                ("Failed to install package " ++ p.name ++ ": " ++
                 String.intercalate "\n" r.2)) }, ev)
  else if p.installation_status = 1 then
    ({ p with installation_status := 4 }, ev)
  else
    ({ p with installation_status := 3 }, ev)

/-- Work items of the installation recursion: install one name, or walk the
dependency list of the node at an index (`idx` is the parent's arena
slot). -/
inductive ITask
  | pkg (name : String)
  | deps (names : List String) (idx : Nat)
  deriving DecidableEq, Inhabited

/-- The body of `install_package_recursive`, fuel-indexed.  The third
result component of a `deps` task is `false` when the dependency loop hit
a failed dependency and returned early (parent status set to -2). -/
def installGo (env : Env) (use_cache_only force : Bool) :
    Nat → ITask → PkgStore → Except RErr (PkgStore × List Event × Bool)
  | 0, _, _ => Except.error RErr.fuelOut
  | fuel + 1, ITask.pkg pkg_name, st =>
    match lookupName st pkg_name with
    | none => Except.error RErr.pyError
    | some idx =>
      let pkg := getNode st idx
      if pkg.errorInfo.isSome then Except.ok (st, [], true)
      else if pkg.kind = PkgKind.official then
        if use_cache_only then
          Except.ok (updateNode st idx
            { pkg with errorInfo := some (PkgError.officialNotInCache
                ("Official package '" ++ pkg_name ++ "' not found in cache")) },
            [], true)
        else
          let r := official_install env pkg force
          Except.ok (updateNode st idx r.1, r.2, true)
      else
        match installGo env use_cache_only force fuel (ITask.deps pkg.dependencies idx) st with
        | Except.error e => Except.error e
        | Except.ok (st1, t1, false) => Except.ok (st1, t1, true)
        | Except.ok (st1, t1, true) =>
          let p := getNode st1 idx
          if p.kind = PkgKind.base then Except.error RErr.pyError
          else
            let r := cached_install env p force
            Except.ok (updateNode st1 idx r.1, t1 ++ r.2, true)
  | _ + 1, ITask.deps [] _, st => Except.ok (st, [], true)
  | fuel + 1, ITask.deps (d :: rest) idx, st =>
    match lookupName st d with
    | none => Except.error RErr.pyError
    | some didx =>
      match installGo env use_cache_only force fuel (ITask.pkg d) st with
      | Except.error e => Except.error e
      | Except.ok (st1, t1, _) =>
        if (getNode st1 didx).errorInfo.isSome then
          let parent := getNode st1 idx
          Except.ok (updateNode st1 idx { parent with installation_status := -2 }, t1, false)
        else
          match installGo env use_cache_only force fuel (ITask.deps rest idx) st1 with
          | Except.error e => Except.error e
          | Except.ok (st2, t2, cont) => Except.ok (st2, t1 ++ t2, cont)

/-- `install_package_recursive(pkg_name, pkg_dict, use_cache_only, force)`. -/
def install_package_recursive (env : Env) (use_cache_only force : Bool)
    (fuel : Nat) (n : String) (st : PkgStore) : Except RErr (PkgStore × List Event) :=
  match installGo env use_cache_only force fuel (ITask.pkg n) st with
  | Except.error e => Except.error e
  | Except.ok (st1, t1, _) => Except.ok (st1, t1)

/-- The installation loop of `main` over all requested names. -/
def installAll (env : Env) (use_cache_only force : Bool) (fuel : Nat) :
    List String → PkgStore → Except RErr (PkgStore × List Event)
  | [], st => Except.ok (st, [])
  | n :: rest, st =>
    match install_package_recursive env use_cache_only force fuel n st with
    | Except.error e => Except.error e
    | Except.ok (st1, t1) =>
      match installAll env use_cache_only force fuel rest st1 with
      | Except.error e => Except.error e
      | Except.ok (st2, t2) => Except.ok (st2, t1 ++ t2)

/-! ## Report renderer (`format_log`, `print_installation_log_recursive`) -/

/-- `format_log(pkg, msg, prefix)`.  The source computes
`len(pkg.version)` *before* its `if pkg.version:` branch, so a node whose
`version` is `None` (every error node and every official node) raises
`TypeError` — modelled as `pyError`. -/
def format_log (pkg : Pkg) (msg : String) (pfx : String) : Except RErr String :=
  match pkg.version with
  | none => Except.error RErr.pyError
  | some v =>
    let prefix2 := String.mk (List.replicate (pkg.name.length + v.length + 3) ' ')
    let msgLines := pySplitlines msg
    let msg' :=
      match msgLines with
      | [] => msg
      | [_] => msg
      | l0 :: rest => String.intercalate "\n" (l0 :: rest.map (fun l => pfx ++ prefix2 ++ l))
    if v ≠ "" then Except.ok (pkg.name ++ " " ++ v ++ ": " ++ msg')
    else Except.ok (pkg.name ++ ": " ++ msg')

/-- The body of `print_installation_log_recursive`.  Besides the
source's parameters it threads the loop state: the running `success`
flag and the current `log_prefix` / `intermediate_prefix` values (which
Python keeps across loop iterations).  A missing name is the
`pkg_dict[pkg_name]` `KeyError`. -/
def printGo (store : PkgStore) :
    Nat → List String → String → Bool → Bool → String → String →
    Except RErr (Bool × List String)
  | _, [], _, _, success, _, _ => Except.ok (success, [])
  | 0, _ :: _, _, _, _, _, _ => Except.error RErr.fuelOut
  | fuel + 1, name :: rest, pfx, isRoot, success, clp, cip =>
    match lookupName store name with
    | none => Except.error RErr.pyError
    | some idx =>
      let pkg := getNode store idx
      let lp := if isRoot then "" else if rest.isEmpty then pfx ++ "└── " else clp
      let ip := if isRoot then "" else if rest.isEmpty then pfx ++ "    " else cip
      let depRes : Except RErr (Bool × List String) :=
        if 0 < pkg.dependencies.length then
          printGo store fuel pkg.dependencies ip false true (ip ++ "├── ") (ip ++ "|   ")
        else Except.ok (success, [])
      match depRes with
      | Except.error e => Except.error e
      | Except.ok (s1, logDep) =>
        let lineRes : Except RErr (Option String × Bool) :=
          if s1 = false then
            match format_log pkg ("Dependency Failed: " ++ pyStrErr pkg.errorInfo) ip with
            | Except.error e => Except.error e
            | Except.ok l => Except.ok (some (lp ++ l), s1)
          else if pkg.errorInfo.isSome then
            match format_log pkg ("Failed: " ++ pyStrErr pkg.errorInfo) ip with
            | Except.error e => Except.error e
            | Except.ok l => Except.ok (some (lp ++ l), false)
          else if pkg.installation_status = 1 then
            match format_log pkg "Skipped" "" with
            | Except.error e => Except.error e
            | Except.ok l => Except.ok (some (lp ++ l), s1)
          else if pkg.installation_status = 3 then
            match format_log pkg "Successfully installed" "" with
            | Except.error e => Except.error e
            | Except.ok l => Except.ok (some (lp ++ l), s1)
          else if pkg.installation_status = 4 then
            match format_log pkg "Successfully reinstalled" "" with
            | Except.error e => Except.error e
            | Except.ok l => Except.ok (some (lp ++ l), s1)
          else Except.ok (none, s1)
        match lineRes with
        | Except.error e => Except.error e
        | Except.ok (ml, s2) =>
          match printGo store fuel rest pfx isRoot s2 lp ip with
          | Except.error e => Except.error e
          | Except.ok (sf, logRest) => Except.ok (sf, ml.toList ++ logDep ++ logRest)

/-- `print_installation_log_recursive(pkg_names, pkg_dict, prefix, is_root)`
with its initial loop state (`log_prefix = prefix + '├── '`,
`intermediate_prefix = prefix + '|   '`, `success = True`). -/
def print_installation_log_recursive (store : PkgStore) (fuel : Nat)
    (names : List String) (pfx : String) (isRoot : Bool) :
    Except RErr (Bool × List String) :=
  printGo store fuel names pfx isRoot true (pfx ++ "├── ") (pfx ++ "|   ")

/-- `print_installation_log(pkg_name, pkg_dict)`: the per-request report,
a success flag and the rendered lines. -/
def print_installation_log (store : PkgStore) (fuel : Nat) (n : String) :
    Except RErr (Bool × List String) :=
  print_installation_log_recursive store fuel [n] "" true

/-! ## `main` and the module-level `try/except` -/

/-- Python `str.lower` restricted to ASCII letters (the only case the
claims concern; requested names are ASCII package names). -/
def pyLowerChar (c : Char) : Char :=
  if 'A' ≤ c ∧ c ≤ 'Z' then Char.ofNat (c.toNat + 32) else c

def pyLower (s : String) : String :=
  String.mk (s.toList.map pyLowerChar)

/-- The statistics loop of `main`: render every requested package's
report in order; an exception while rendering aborts the run (exit 1)
keeping the reports already printed, otherwise exit 0. -/
def renderAll (store : PkgStore) (fuel : Nat) :
    List String → Nat × List (Bool × List String)
  | [] => (0, [])
  | n :: rest =>
    match print_installation_log store fuel n with
    | Except.error _ => (1, [])
    | Except.ok r =>
      let t := renderAll store fuel rest
      (t.1, r :: t.2)

/-- `main(argv)` wrapped in the module-level `try/except`: lower-case the
requested names, resolve all, install all, render all reports.  The result
is the process exit status (0 from the `exit(0)` after a normal return of
`main`, 1 when an exception escapes `main`) together with the reports
rendered before termination. -/
def mainRun (env : Env) (use_cache_only force : Bool) (names : List String)
    (fuel : Nat) : Nat × List (Bool × List String) :=
  let lnames := names.map pyLower
  match resolveAll env fuel lnames emptyStore with
  | Except.error _ => (1, [])
  | Except.ok (st, _) =>
    match installAll env use_cache_only force fuel lnames st with
    | Except.error _ => (1, [])
    | Except.ok (st2, _) => renderAll st2 fuel lnames

/-! ## Concrete environments used by counterexamples and witnesses -/

/-- A well-formed archive record as `CachedPackage.__init__` produces it
from a parsable file name. -/
def mkCached (n v pa : String) : Pkg :=
  { kind := PkgKind.cached, name := n, version := some v, architecture := none,
    license := none, repository := none, dependencies := [], errorInfo := none,
    installation_status := 0, path := pa }

/-- Dependency chain a -> b -> c where `c` is unavailable everywhere:
`c` ends resolution with `CachedPackageUnavailable`, `b` ends installation
as dependency-failed, and `a` is the node the grandchild's failure should
(per the claim) reach. -/
def envC1 : Env :=
  { emptyEnv with
    cache := [mkCached "a" "1-1" "pa", mkCached "b" "1-1" "pb"],
    descriptor := fun pa =>
      if pa = "pa" then some "depend = b"
      else if pa = "pb" then some "depend = c"
      else none }

/-- Chain a -> b where `b`'s descriptor cannot be read, so `b` carries
`error_info` already after resolution. -/
def envC1w : Env :=
  { emptyEnv with
    cache := [mkCached "a" "1-1" "pa", mkCached "b" "1-1" "pb"],
    descriptor := fun pa => if pa = "pa" then some "depend = b" else none }

/-- Requested package `a` depending on cached `b` whose install action
exits non-zero. -/
def envC2 : Env :=
  { emptyEnv with
    cache := [mkCached "a" "1-1" "pa", mkCached "b" "1-1" "pb"],
    descriptor := fun pa =>
      if pa = "pa" then some "depend = b"
      else if pa = "pb" then some "size = 10"
      else none,
    runInstallArchive := fun pa _ => if pa = "pb" then (1, ["boom"]) else (0, []) }

/-- A resolved map where requested `a` (cached, installed, status 3)
depends on `b`, a bare error node carrying `CachedPackageUnavailable`. -/
def c3NodeA : Pkg :=
  { mkCached "a" "1-1" "pa" with
    dependencies := ["b"]
    repository := some PackageRepository.localRepo
    installation_status := 3 }

def c3Store : PkgStore :=
  { nodes := [c3NodeA, mkUnavailable "b"], index := [("a", 0), ("b", 1)] }

/-- Cache holding versions 2.9-1 and 2.10-1 of the same name (worse
version first). -/
def envC4 : Env :=
  { emptyEnv with
    cache := [mkCached "pkga" "2.9-1" "p29", mkCached "pkga" "2.10-1" "p210"] }

/-- A one-node resolved map for the repeated-resolution claim. -/
def c5Store : PkgStore :=
  bindName (addNode emptyStore (mkCached "z" "1-1" "pz")).1 "z" 0

/-- Mutually dependent cycle reachable only through the provider-names
query: `x` resolves (via providers) to cached `xp` depending on `y`, and
`y` to cached `yp` depending on `x`. -/
def envC6 : Env :=
  { emptyEnv with
    cache := [mkCached "xp" "1-1" "pxp", mkCached "yp" "1-1" "pyp"],
    providers := fun n =>
      if n = "x" then some ["xp"] else if n = "y" then some ["yp"] else none,
    descriptor := fun pa =>
      if pa = "pxp" then some "depend = y"
      else if pa = "pyp" then some "depend = x"
      else none }

/-- The `xp` record as the provider scan returns it. -/
def nodeXp : Pkg := mkCached "xp" "1-1" "pxp"

/-- The `yp` record as the provider scan returns it. -/
def nodeYp : Pkg := mkCached "yp" "1-1" "pyp"

/-- `xp` after `determine_repository`. -/
def nodeXpR : Pkg := { nodeXp with repository := some PackageRepository.localRepo }

/-- `yp` after `determine_repository`. -/
def nodeYpR : Pkg := { nodeYp with repository := some PackageRepository.localRepo }

/-- `xp` after `determine_package_info` (dependency `y` parsed). -/
def nodeXpD : Pkg := { nodeXpR with dependencies := ["y"] }

/-- `yp` after `determine_package_info` (dependency `x` parsed). -/
def nodeYpD : Pkg := { nodeYpR with dependencies := ["x"] }

/-- Name `n` that is not cached but reported installed under canonical
name `real` (which is not cached either); not in the official repository;
its providers include cached `p`. -/
def envC7 : Env :=
  { emptyEnv with
    cache := [mkCached "p" "1-1" "pp"],
    installedCanonical := fun n => if n = "n" then some "real" else none,
    providers := fun n => if n = "n" then some ["p"] else none }

/-- Cached package whose name also appears in the official-repository
index. -/
def envC9 : Env :=
  { emptyEnv with
    officialIds := ["foo"],
    cache := [mkCached "foo" "1-1" "pf"],
    descriptor := fun pa => if pa = "pf" then some "size = 1" else none }

/-- A local node whose descriptor declares the mixed-case dependency
`Foo`. -/
def envC10a : Env :=
  { emptyEnv with descriptor := fun pa => if pa = "px" then some "depend = Foo" else none }

def pkgC10 : Pkg :=
  { mkCached "x" "1-1" "px" with repository := some PackageRepository.localRepo }

/-- A cache containing only the mixed-case name `Foo`. -/
def envC10b : Env :=
  { emptyEnv with cache := [mkCached "Foo" "1-1" "pF"] }

/-! ## Projection helpers for concrete runs -/

/-- Extract the value of a successful computation (default otherwise). -/
def okOr {α : Type} (d : α) : Except RErr α → α
  | Except.ok x => x
  | Except.error _ => d

/-- Resolve then install the request list, reporting the final
installation status of the node bound to `q` together with the
installation-phase event trace; `none` when a phase raised or `q` is
unbound. -/
def pipelineOutcome (env : Env) (uc force : Bool) (fuel : Nat)
    (names : List String) (q : String) : Option (Int × List Event) :=
  match resolveAll env fuel names emptyStore with
  | Except.error _ => none
  | Except.ok (st, _) =>
    match installAll env uc force fuel names st with
    | Except.error _ => none
    | Except.ok (st2, tr) =>
      match lookupName st2 q with
      | none => none
      | some i => some ((getNode st2 i).installation_status, tr)

/-- Resolve one fresh name, reporting the resolved node's `error_info`
and the resolution event trace. -/
def resolveOutcome (env : Env) (fuel : Nat) (n : String) :
    Option (Option PkgError × List Event) :=
  match get_package_recursive env fuel n emptyStore with
  | Except.error _ => none
  | Except.ok (st, tr) =>
    match lookupName st n with
    | none => none
    | some i => some ((getNode st i).errorInfo, tr)

/-- Resolve one fresh name, reporting the resolved node's `repository`. -/
def resolveRepository (env : Env) (fuel : Nat) (n : String) :
    Option (Option PackageRepository) :=
  match get_package_recursive env fuel n emptyStore with
  | Except.error _ => none
  | Except.ok (st, _) =>
    match lookupName st n with
    | none => none
    | some i => some (getNode st i).repository

/-- The collaborator invocations the resolution of a fresh name performs
before descending into descriptor parsing or dependencies, following the
precedence the source actually implements: exact cache hit; else the
installed-state query, and if installed a cache retry with the canonical
name, falling back (on a retry miss) to the official-repository query and
then failure — the provider query runs only when the installed-state query
itself failed, after the official query also failed. -/
def alias_query_schedule (env : Env) (n : String) : List Event :=
  match get_cached_package env n with
  | Except.error _ => []
  | Except.ok (some _, ev) => ev
  | Except.ok (none, _) =>
    Event.queryInstalled n ::
    match env.installedCanonical n with
    | some real =>
      (match get_cached_package env real with
       | Except.error _ => []
       | Except.ok (some _, ev) => ev
       | Except.ok (none, _) =>
         Event.queryOfficial n ::
         (match env.officialCanonical n with
          | some ro => (mkOfficialPackage env ro).2
          | none => []))
    | none =>
      Event.queryOfficial n ::
      (match env.officialCanonical n with
       | some ro => (mkOfficialPackage env ro).2
       | none =>
         Event.queryProviders n ::
         (match env.providers n with
          | some rpns =>
            (match scanProviders env rpns with
             | Except.ok (_, ev) => ev
             | Except.error _ => [])
          | none => []))

/-! ## Extracted concrete states -/

/-- The resolved map for `envC1w` after requesting `a`. -/
def c1wStore : PkgStore :=
  (okOr (emptyStore, []) (resolveAll envC1w 10 ["a"] emptyStore)).1

/-- Resolution result, installation result and reports of the `envC2`
run. -/
def c2St : PkgStore × List Event :=
  okOr (emptyStore, []) (resolveAll envC2 10 ["a"] emptyStore)

def c2St2 : PkgStore × List Event :=
  okOr (emptyStore, []) (installAll envC2 false false 10 ["a"] c2St.1)

def c2Reps : List (Bool × List String) :=
  (renderAll c2St2.1 10 ["a"]).2

/-- The record `get_cached_package` must select from `envC4`. -/
def c4Best : Pkg := mkCached "pkga" "2.10-1" "p210"

/-! # Shared store lemmas -/

theorem lookupName_addNode (st : PkgStore) (p : Pkg) (k : String) :
    lookupName (addNode st p).1 k = lookupName st k := rfl

theorem lookupName_updateNode (st : PkgStore) (i : Nat) (p : Pkg) (k : String) :
    lookupName (updateNode st i p) k = lookupName st k := rfl

theorem getNode_addNode (st : PkgStore) (p : Pkg) :
    getNode (addNode st p).1 (addNode st p).2 = p := by
  simp [getNode, addNode, List.getD, List.getElem?_concat_length]

/-! # C3 -/

/-- C3: rendering the report for requested `a` depending on the
`PackageUnavailable` node `b` does **not** terminate normally: `format_log`
evaluates `len(pkg.version)` on `b`'s `None` version and raises
`TypeError`, aborting the whole report.  (The claim expects a normal
non-success report with a "Failed"/"Dependency Failed" line pair.) -/
theorem c3_render_raises_type_error :
    print_installation_log c3Store 10 "a" = Except.error RErr.pyError := by decide

/-! # C5 -/

/-- C5: resolving a name that is already a key of the map returns
immediately: the map is unchanged (so every alias binding, in particular
the shared node of an alias/canonical pair, is untouched) and no
collaborator event is emitted. -/
theorem c5_repeated_resolution_is_noop (env : Env) (fuel : Nat) (st : PkgStore)
    (n : String) (idx : Nat) (h : lookupName st n = some idx) :
    get_package_recursive env (fuel + 1) n st = Except.ok (st, []) := by
  simp [get_package_recursive, resolveGo, h]

/-- Witness for C5 at a concrete one-node map. -/
theorem c5_witness :
    lookupName c5Store "z" = some 0 ∧
    get_package_recursive emptyEnv 5 "z" c5Store = Except.ok (c5Store, []) :=
  ⟨by decide, c5_repeated_resolution_is_noop emptyEnv 4 c5Store "z" 0 (by decide)⟩

/-! # C8 -/

/-- C8: `CachedPackage.install`: a same-version node without `force` is
skipped unchanged with no action; with `force` the action runs with the
`--force` flag and success yields status 4 (reinstalled); a 0/2-status
node always runs the action without `--force` and success yields status 3
(installed fresh); whenever the action runs and exits non-zero, the status
becomes -1 with the captured stderr recorded in `error_info`. -/
theorem c8_cached_install_cases (env : Env) (p : Pkg) (force : Bool) :
    (p.installation_status = 1 → force = false → cached_install env p force = (p, [])) ∧
    (p.installation_status = 1 → force = true →
      (cached_install env p force).2 = [Event.installArchive p.path true] ∧
      ((env.runInstallArchive p.path true).1 = 0 →
        (cached_install env p force).1.installation_status = 4)) ∧
    (p.installation_status = 0 ∨ p.installation_status = 2 →
      (cached_install env p force).2 = [Event.installArchive p.path false] ∧
      ((env.runInstallArchive p.path false).1 = 0 →
        (cached_install env p force).1.installation_status = 3)) ∧
    ((p.installation_status = 0 ∨ p.installation_status = 2 ∨ force = true) →
      (env.runInstallArchive p.path (decide (p.installation_status = 1))).1 ≠ 0 →
      (cached_install env p force).1.installation_status = -1 ∧
      (cached_install env p force).1.errorInfo =
        some (PkgError.installActionFailed
          ("Failed to install package " ++ p.name ++ " " ++
           cached_install.pyStrOpt p.version ++ ": " ++
           cached_install.joinLines
             (env.runInstallArchive p.path (decide (p.installation_status = 1))).2))) := by
  refine ⟨?_, ?_, ?_, ?_⟩
  · intro h1 h2
    subst h2
    simp [cached_install, h1]
  · intro h1 h2
    subst h2
    constructor
    · simp [cached_install, h1]
      split <;> rfl
    · intro hrc
      simp [cached_install, h1, hrc]
  · intro h1
    rcases h1 with h1 | h1 <;>
    · constructor
      · simp [cached_install, h1]
        split <;> rfl
      · intro hrc
        simp [cached_install, h1, hrc]
  · intro h1 hrc
    rcases h1 with h1 | h1 | h1
    · have hrc' : (env.runInstallArchive p.path false).1 ≠ 0 := by simpa [h1] using hrc
      simp [cached_install, h1, hrc']
    · have hrc' : (env.runInstallArchive p.path false).1 ≠ 0 := by simpa [h1] using hrc
      simp [cached_install, h1, hrc']
    · subst h1
      simp [cached_install, hrc]

/-- Witness for C8: a same-version node with `force = false` is returned
unchanged with no install event. -/
theorem c8_witness :
    ({ mkCached "w" "1-1" "pw" with installation_status := 1 }.installation_status = 1) ∧
    cached_install emptyEnv { mkCached "w" "1-1" "pw" with installation_status := 1 } false =
      ({ mkCached "w" "1-1" "pw" with installation_status := 1 }, []) :=
  ⟨by decide,
   (c8_cached_install_cases emptyEnv
     { mkCached "w" "1-1" "pw" with installation_status := 1 } false).1 (by decide) rfl⟩

/-! # C9 -/

/-- C9 counterexample: `foo` is resolved from the archive cache, but its
name is also in the official-repository index, and `determine_repository`
attributes it to the *official* repository — the claim says every
cache-resolved node gets `Local`. -/
theorem c9_cached_node_attributed_official :
    resolveRepository envC9 10 "foo" = some (some PackageRepository.official) := by
  decide

/-- C9 amended: `determine_repository` attributes a node to the official
repository exactly when its name occurs in the official-repository index,
and to the local repository otherwise — regardless of cache membership. -/
theorem c9_repository_from_official_index (env : Env) (p : Pkg) :
    ((determine_repository env p).repository = some PackageRepository.official ↔
      p.name ∈ env.officialIds) ∧
    ((determine_repository env p).repository = some PackageRepository.localRepo ↔
      p.name ∉ env.officialIds) := by
  have hfind : ∀ l : List String, findOfficial l p.name = true ↔ p.name ∈ l := by
    intro l
    induction l with
    | nil => simp [findOfficial]
    | cons x xs ih =>
      by_cases hx : x = p.name
      · subst hx
        simp [findOfficial]
      · simp [findOfficial, hx, ih]
        exact fun h => absurd h.symm hx
  constructor
  · rw [← hfind]
    cases h : findOfficial env.officialIds p.name <;>
      simp [determine_repository, h]
  · rw [← hfind]
    cases h : findOfficial env.officialIds p.name <;>
      simp [determine_repository, h]

/-! # C10 -/

/-- C10: requested names are lower-cased before the whole pipeline, so
requested-name lists equal up to ASCII case give identical runs; a
descriptor-declared dependency keeps its case (`Foo` stays `Foo`); and a
lower-cased request does not match a cache record whose name differs only
in case. -/
theorem c10_lowercasing :
    (∀ (env : Env) (uc force : Bool) (fuel : Nat) (n1 n2 : List String),
      n1.map pyLower = n2.map pyLower →
      mainRun env uc force n1 fuel = mainRun env uc force n2 fuel) ∧
    (determine_package_info envC10a pkgC10).1.dependencies = ["Foo"] ∧
    get_cached_package envC10b "foo" = Except.ok (none, []) := by
  refine ⟨?_, by decide, rfl⟩
  intro env uc force fuel n1 n2 h
  unfold mainRun
  rw [h]

/-- Witness for C10: two single-request runs differing only in ASCII case
behave identically. -/
theorem c10_witness :
    (["FOO"].map pyLower = ["foo"].map pyLower) ∧
    mainRun emptyEnv false false ["FOO"] 3 = mainRun emptyEnv false false ["foo"] 3 :=
  ⟨by decide, c10_lowercasing.1 emptyEnv false false 3 ["FOO"] ["foo"] (by decide)⟩

/-! # C1 -/

/-- C1 counterexample: in the chain a -> b -> c where `c` is unavailable,
`b` ends as dependency-failed (-2), but `a` — whose dependency *subtree*
contains the failure — ends with status 3 (successfully installed) and its
own install action (`pacman -U pa`) is invoked: the grandchild's failure
does not propagate through the intermediate dependency-failed node,
because the loop checks only the direct dependency's `error_info`, which
a status -2 node does not carry. -/
theorem c1_grandchild_failure_not_propagated :
    pipelineOutcome envC1 false false 10 ["a"] "a" =
      some (3, [Event.installArchive "pa" false]) := by decide

/-- C1 amended: the failure propagation of `install_package_recursive` is
one level deep — when a *direct* dependency's node ends with `error_info`
set, the parent's status becomes -2 and its own install action is never
invoked (the run returns right after the failing dependency's trace,
emitting no further event). -/
theorem c1_direct_dependency_failure (env : Env) (uc force : Bool) (fuel : Nat)
    (st st1 : PkgStore) (name d : String) (rest : List String)
    (idx didx : Nat) (t1 : List Event) (b : Bool)
    (hidx : lookupName st name = some idx)
    (herr : (getNode st idx).errorInfo = none)
    (hkind : (getNode st idx).kind = PkgKind.cached)
    (hdeps : (getNode st idx).dependencies = d :: rest)
    (hd : lookupName st d = some didx)
    (hrec : installGo env uc force fuel (ITask.pkg d) st = Except.ok (st1, t1, b))
    (hfail : (getNode st1 didx).errorInfo.isSome = true) :
    install_package_recursive env uc force (fuel + 2) name st =
      Except.ok (updateNode st1 idx
        { getNode st1 idx with installation_status := -2 }, t1) := by
  have hstep : fuel + 2 = (fuel + 1) + 1 := rfl
  rw [install_package_recursive, hstep]
  simp only [installGo, hidx, herr, hkind, hdeps, hd, hrec, hfail]
  simp

/-- Witness for C1's amended theorem: `a` depends on `b`, whose descriptor
is unreadable, so `b` carries `error_info` after resolution and `a` ends
at status -2 without its install action. -/
theorem c1_witness :
    (lookupName c1wStore "a" = some 0 ∧
     (getNode c1wStore 0).errorInfo = none ∧
     (getNode c1wStore 0).kind = PkgKind.cached ∧
     (getNode c1wStore 0).dependencies = ["b"] ∧
     lookupName c1wStore "b" = some 1 ∧
     installGo envC1w false false 3 (ITask.pkg "b") c1wStore =
       Except.ok (c1wStore, [], true) ∧
     (getNode c1wStore 1).errorInfo.isSome = true) ∧
    install_package_recursive envC1w false false 5 "a" c1wStore =
      Except.ok (updateNode c1wStore 0
        { getNode c1wStore 0 with installation_status := -2 }, []) :=
  ⟨⟨by decide, by decide, by decide, by decide, by decide, by decide, by decide⟩,
   c1_direct_dependency_failure envC1w false false 3 c1wStore c1wStore "a" "b" []
     0 1 [] true (by decide) (by decide) (by decide) (by decide) (by decide)
     (by decide) (by decide)⟩

/-! # C2 -/

/-- C2 counterexample: requested `a` depends on cached `b` whose install
action exits non-zero; the run completes and renders the (failing) report,
but the process exit status is 0 — `exit(0)` runs whenever `main` returns,
regardless of per-package failure — contradicting the claimed non-zero
exit. -/
theorem c2_failing_run_exits_zero :
    mainRun envC2 false false ["a"] 10 =
      (0, [(false, ["a 1-1: Dependency Failed: None",
                    "└── b 1-1: Failed: Failed to install package b 1-1: boom"])]) := by
  decide

/-- Auxiliary: a statistics loop that finishes with exit code 0 rendered
one report per requested name. -/
theorem renderAll_zero_length (st : PkgStore) (fuel : Nat) :
    ∀ (l : List String) (reps : List (Bool × List String)),
      renderAll st fuel l = (0, reps) → reps.length = l.length := by
  intro l
  induction l with
  | nil =>
    intro reps h
    simp only [renderAll, Prod.mk.injEq] at h
    simp [← h.2]
  | cons n rest ih =>
    intro reps h
    simp only [renderAll] at h
    cases hp : print_installation_log st fuel n with
    | error e =>
      rw [hp] at h
      simp at h
    | ok r =>
      rw [hp] at h
      cases hr : renderAll st fuel rest with
      | mk c rs =>
        rw [hr] at h
        simp only [Prod.mk.injEq] at h
        obtain ⟨hc, hreps⟩ := h
        subst hc
        rw [← hreps]
        simp [ih rs hr]

/-- C2 amended: a run in which every phase returns normally (resolution,
installation, and the rendering of every report) still completes and
renders one report per requested package even when some requested
package's report is failing — but the process then exits with status 0,
not the claimed non-zero status (a non-zero exit occurs only when an
exception escapes `main`). -/
theorem c2_completed_failing_run (env : Env) (uc force : Bool)
    (names : List String) (fuel : Nat) (st st2 : PkgStore × List Event)
    (reps : List (Bool × List String))
    (h1 : resolveAll env fuel (names.map pyLower) emptyStore = Except.ok st)
    (h2 : installAll env uc force fuel (names.map pyLower) st.1 = Except.ok st2)
    (h3 : renderAll st2.1 fuel (names.map pyLower) = (0, reps))
    (_hfail : ∃ r ∈ reps, r.1 = false) :
    mainRun env uc force names fuel = (0, reps) ∧ reps.length = names.length := by
  obtain ⟨sta, stb⟩ := st
  obtain ⟨st2a, st2b⟩ := st2
  dsimp only at h2 h3
  constructor
  · rw [mainRun, h1]
    dsimp only
    rw [h2]
    exact h3
  · have := renderAll_zero_length st2a fuel (names.map pyLower) reps h3
    simpa using this

/-- Witness for C2's amended theorem at the concrete failing `envC2`
run. -/
theorem c2_witness :
    (resolveAll envC2 10 (["a"].map pyLower) emptyStore = Except.ok c2St ∧
     installAll envC2 false false 10 (["a"].map pyLower) c2St.1 = Except.ok c2St2 ∧
     renderAll c2St2.1 10 (["a"].map pyLower) = (0, c2Reps) ∧
     (∃ r ∈ c2Reps, r.1 = false)) ∧
    mainRun envC2 false false ["a"] 10 = (0, c2Reps) ∧ c2Reps.length = ["a"].length :=
  ⟨⟨by decide, by decide, by decide, by decide⟩,
   c2_completed_failing_run envC2 false false ["a"] 10 c2St c2St2 c2Reps
     (by decide) (by decide) (by decide) (by decide)⟩

/-! # C4 -/

/-- Components compare equal to themselves under Python `==`. -/
theorem vcompEq_self (a : VComp) : vcompEq a a = true := by
  cases a <;> simp [vcompEq]

/-- Python list `<` is irreflexive (equal lists compare `False`). -/
theorem listLt_self (l : List VComp) : listLt l l = some false := by
  induction l with
  | nil => rfl
  | cons a as ih => simp [listLt, vcompEq_self, ih]

/-- A node with a version never compares strictly below itself. -/
theorem versionLt_self (p : Pkg) (v : String) (h : p.version = some v) :
    versionLt p p = Except.ok false := by
  simp [versionLt, h, listLt_self]

/-- Soundness of the selection loop of `get_cached_package`: under a
transitivity assumption for the comparisons among the candidate set `S`,
a successful run returns a member of `S` that is reachable from the
accumulator by strict increases and is not strictly below any scanned
record. -/
theorem pickBest_spec (S : List Pkg)
    (htr : ∀ a ∈ S, ∀ b ∈ S, ∀ c ∈ S,
      versionLt a b = Except.ok true → versionLt b c = Except.ok true →
      versionLt a c = Except.ok true) :
    ∀ (l : List Pkg) (acc res : Pkg), acc ∈ S → (∀ x ∈ l, x ∈ S) →
      pickBest acc l = Except.ok res →
      res ∈ S ∧ (versionLt acc res = Except.ok true ∨ res = acc) ∧
      (∀ m ∈ l, versionLt res m ≠ Except.ok true) := by
  intro l
  induction l with
  | nil =>
    intro acc res hacc _ hrun
    simp only [pickBest] at hrun
    obtain rfl : acc = res := Except.ok.inj hrun
    exact ⟨hacc, Or.inr rfl, by simp⟩
  | cons m rest ih =>
    intro acc res hacc hsub hrun
    have hmS : m ∈ S := hsub m (List.mem_cons_self m rest)
    have hrestS : ∀ x ∈ rest, x ∈ S := fun x hx => hsub x (List.mem_cons_of_mem m hx)
    simp only [pickBest] at hrun
    cases hlt : versionLt acc m with
    | error e => rw [hlt] at hrun; exact absurd hrun (by simp)
    | ok bv =>
      rw [hlt] at hrun
      have hmv : ∃ v, m.version = some v := by
        cases hmver : m.version with
        | none => rw [versionLt, hmver] at hlt; cases hav : acc.version <;>
                    rw [hav] at hlt <;> exact absurd hlt (by simp)
        | some v => exact ⟨v, rfl⟩
      cases bv with
      | true =>
        obtain ⟨hS, hreach, hall⟩ := ih m res hmS hrestS hrun
        refine ⟨hS, ?_, ?_⟩
        · rcases hreach with hmr | hresm
          · exact Or.inl (htr acc hacc m hmS res hS hlt hmr)
          · exact Or.inl (hresm ▸ hlt)
        · intro x hx
          rcases List.mem_cons.mp hx with h | hx
          · rw [h]
            rcases hreach with hmr | hresm
            · intro hcon
              have hmm : versionLt m m = Except.ok true := htr m hmS res hS m hmS hmr hcon
              obtain ⟨v, hv⟩ := hmv
              rw [versionLt_self m v hv] at hmm
              exact absurd (Except.ok.inj hmm) (by simp)
            · rw [hresm]
              obtain ⟨v, hv⟩ := hmv
              rw [versionLt_self m v hv]
              intro hcon
              exact absurd (Except.ok.inj hcon) (by simp)
          · exact hall x hx
      | false =>
        obtain ⟨hS, hreach, hall⟩ := ih acc res hacc hrestS hrun
        refine ⟨hS, hreach, ?_⟩
        · intro x hx
          rcases List.mem_cons.mp hx with h | hx
          · rw [h]
            rcases hreach with har | hra
            · intro hcon
              have hacm : versionLt acc m = Except.ok true := htr acc hacc res hS m hmS har hcon
              rw [hlt] at hacm
              exact absurd (Except.ok.inj hacm) (by simp)
            · rw [hra, hlt]
              intro hcon
              exact absurd (Except.ok.inj hcon) (by simp)
          · exact hall x hx

/-- C4: `get_cached_package` returns `None` exactly when no cache record
carries the queried name; otherwise it returns (refreshed against the
installed state) a record with that name such that no other record with
the name has a strictly greater version under the `LooseVersion`
dotted-numeric ordering.  The transitivity hypothesis says the versions of
the records carrying the name are soundly comparable — vacuous for
ordinary dotted-numeric versions such as `2.10-1` vs `2.9-1`, as the
witness shows. -/
theorem c4_best_cached_version (env : Env) (n : String) (r : Option Pkg × List Event)
    (hok : get_cached_package env n = Except.ok r)
    (htr : ∀ a ∈ cacheMatches env.cache n, ∀ b ∈ cacheMatches env.cache n,
      ∀ c ∈ cacheMatches env.cache n,
      versionLt a b = Except.ok true → versionLt b c = Except.ok true →
      versionLt a c = Except.ok true) :
    (r.1 = none ↔ cacheMatches env.cache n = []) ∧
    (∀ p, r.1 = some p →
      ∃ best ∈ cacheMatches env.cache n, best.name = n ∧
        p = (get_installation_status env best).1 ∧
        ∀ m ∈ cacheMatches env.cache n, versionLt best m ≠ Except.ok true) := by
  rw [get_cached_package] at hok
  cases hm : cacheMatches env.cache n with
  | nil =>
    rw [hm] at hok
    obtain rfl : ((none : Option Pkg), ([] : List Event)) = r := Except.ok.inj hok
    exact ⟨by simp, fun p hp => absurd hp (by simp)⟩
  | cons q qs =>
    rw [hm] at hok
    dsimp only at hok
    cases hpb : pickBest q (q :: qs) with
    | error e => rw [hpb] at hok; exact absurd hok (by simp)
    | ok best =>
      rw [hpb] at hok
      obtain rfl : (some (get_installation_status env best).1,
          (get_installation_status env best).2) = r := Except.ok.inj hok
      constructor
      · simp
      · intro p hp
        obtain rfl : (get_installation_status env best).1 = p := by
          simpa using hp
        have hspec := pickBest_spec (q :: qs) (hm ▸ htr) (q :: qs) q best
          (List.mem_cons_self q qs) (fun x hx => hx) hpb
        obtain ⟨hS, _, hall⟩ := hspec
        refine ⟨best, hm ▸ hS, ?_, rfl, hm ▸ hall⟩
        have := hm ▸ hS
        exact of_decide_eq_true (List.mem_filter.mp this).2

/-- Witness for C4 at a cache holding `2.9-1` and `2.10-1` of the same
name: the lookup succeeds, the comparisons are transitive, the general
theorem applies, and the `2.10-1` record is the one selected. -/
theorem c4_witness :
    (get_cached_package envC4 "pkga" =
       Except.ok (some c4Best, [Event.pacmanIsInstalled "pkga"]) ∧
     (∀ a ∈ cacheMatches envC4.cache "pkga", ∀ b ∈ cacheMatches envC4.cache "pkga",
       ∀ c ∈ cacheMatches envC4.cache "pkga",
       versionLt a b = Except.ok true → versionLt b c = Except.ok true →
       versionLt a c = Except.ok true)) ∧
    ((some c4Best = none ↔ cacheMatches envC4.cache "pkga" = []) ∧
     (∀ p, some c4Best = some p →
       ∃ best ∈ cacheMatches envC4.cache "pkga", best.name = "pkga" ∧
         p = (get_installation_status envC4 best).1 ∧
         ∀ m ∈ cacheMatches envC4.cache "pkga", versionLt best m ≠ Except.ok true)) :=
  ⟨⟨by decide, by decide⟩,
   c4_best_cached_version envC4 "pkga"
     (some c4Best, [Event.pacmanIsInstalled "pkga"]) (by decide) (by decide)⟩

/-! # C7 -/

/-- C7 counterexample: `n` is not cached, the installed-state query
succeeds with canonical name `real`, the cache retry and the official
query fail — and resolution produces a `CachedPackageUnavailable` node
*without ever running the provider-names query* (the trace holds only the
installed-state and official queries), although `n`'s providers include
the cached package `p`; the claimed linear precedence would have reached
step 4 and used that cache hit. -/
theorem c7_provider_step_skipped_when_installed :
    resolveOutcome envC7 10 "n" =
      some (some (PkgError.cachedUnavailable "No cached package available for 'n'"),
            [Event.queryInstalled "n", Event.queryOfficial "n"]) := by decide

/-- C7 amended: resolving a fresh name emits exactly the collaborator
queries of `alias_query_schedule` (followed only by descriptor/dependency
work): exact cache hit first; else the installed-state query; if installed,
a cache retry with the canonical name, then — on a retry miss — the
official query and failure, *skipping the provider query*; only when the
installed-state query itself failed do the official query and then the
provider query run. -/
theorem c7_query_precedence (env : Env) (fuel : Nat) (st st' : PkgStore)
    (n : String) (tr : List Event)
    (hfresh : lookupName st n = none)
    (hok : get_package_recursive env (fuel + 1) n st = Except.ok (st', tr)) :
    ∃ rest, tr = alias_query_schedule env n ++ rest := by
  simp only [get_package_recursive, resolveGo, hfresh, Option.isSome_none,
    Bool.false_eq_true, if_false] at hok
  cases hc : get_cached_package env n with
  | error e => rw [hc] at hok; exact absurd hok (by simp)
  | ok v =>
    obtain ⟨opt, ev0⟩ := v
    rw [hc] at hok
    cases opt with
    | some pkg =>
      dsimp only at hok
      cases hrec : resolveGo env fuel (RTask.tail (addNode st pkg).2)
          (bindName (addNode st pkg).1 n (addNode st pkg).2) with
      | error e => rw [hrec] at hok; exact absurd hok (by simp)
      | ok pr =>
        obtain ⟨st3, t3⟩ := pr
        rw [hrec] at hok
        simp only [Except.ok.injEq, Prod.mk.injEq] at hok
        exact ⟨t3, by rw [← hok.2]; simp [alias_query_schedule, hc]⟩
    | none =>
      dsimp only at hok
      cases hi : env.installedCanonical n with
      | some real =>
        rw [hi] at hok
        dsimp only at hok
        cases hc2 : get_cached_package env real with
        | error e => rw [hc2] at hok; exact absurd hok (by simp)
        | ok v2 =>
          obtain ⟨opt2, ev2⟩ := v2
          rw [hc2] at hok
          cases opt2 with
          | some pkg =>
            dsimp only at hok
            cases hrec : resolveGo env fuel (RTask.tail (addNode st pkg).2)
                (bindName (bindName (addNode st pkg).1 n (addNode st pkg).2)
                  real (addNode st pkg).2) with
            | error e => rw [hrec] at hok; exact absurd hok (by simp)
            | ok pr =>
              obtain ⟨st3, t3⟩ := pr
              rw [hrec] at hok
              simp only [Except.ok.injEq, Prod.mk.injEq] at hok
              exact ⟨t3, by rw [← hok.2]; simp [alias_query_schedule, hc, hi, hc2]⟩
          | none =>
            dsimp only at hok
            cases ho : env.officialCanonical n with
            | some ro =>
              rw [ho] at hok
              dsimp only at hok
              simp only [Except.ok.injEq, Prod.mk.injEq] at hok
              refine ⟨[], ?_⟩
              rw [← hok.2]
              simp [alias_query_schedule, hc, hi, hc2, ho]
            | none =>
              rw [ho] at hok
              dsimp only at hok
              simp only [Except.ok.injEq, Prod.mk.injEq] at hok
              refine ⟨[], ?_⟩
              rw [← hok.2]
              simp [alias_query_schedule, hc, hi, hc2, ho]
      | none =>
        rw [hi] at hok
        dsimp only at hok
        cases ho : env.officialCanonical n with
        | some ro =>
          rw [ho] at hok
          dsimp only at hok
          simp only [Except.ok.injEq, Prod.mk.injEq] at hok
          refine ⟨[], ?_⟩
          rw [← hok.2]
          simp [alias_query_schedule, hc, hi, ho]
        | none =>
          rw [ho] at hok
          dsimp only at hok
          cases hp : env.providers n with
          | some rpns =>
            rw [hp] at hok
            dsimp only at hok
            cases hs : scanProviders env rpns with
            | error e => rw [hs] at hok; exact absurd hok (by simp)
            | ok v4 =>
              obtain ⟨opt4, ev4⟩ := v4
              rw [hs] at hok
              cases opt4 with
              | some pkg =>
                dsimp only at hok
                cases hrec : resolveGo env fuel (RTask.tail (addNode st pkg).2)
                    (addNode st pkg).1 with
                | error e => rw [hrec] at hok; exact absurd hok (by simp)
                | ok pr =>
                  obtain ⟨st3, t3⟩ := pr
                  rw [hrec] at hok
                  simp only [Except.ok.injEq, Prod.mk.injEq] at hok
                  exact ⟨t3, by rw [← hok.2]; simp [alias_query_schedule, hc, hi, ho, hp, hs]⟩
              | none =>
                dsimp only at hok
                simp only [Except.ok.injEq, Prod.mk.injEq] at hok
                refine ⟨[], ?_⟩
                rw [← hok.2]
                simp [alias_query_schedule, hc, hi, ho, hp, hs]
          | none =>
            rw [hp] at hok
            dsimp only at hok
            simp only [Except.ok.injEq, Prod.mk.injEq] at hok
            refine ⟨[], ?_⟩
            rw [← hok.2]
            simp [alias_query_schedule, hc, hi, ho, hp]

/-- Witness for C7's amended theorem at the concrete `envC7` resolution. -/
theorem c7_witness :
    (lookupName emptyStore "n" = none ∧
     get_package_recursive envC7 10 "n" emptyStore =
       Except.ok ((okOr (emptyStore, []) (get_package_recursive envC7 10 "n" emptyStore)).1,
         [Event.queryInstalled "n", Event.queryOfficial "n"])) ∧
    (∃ rest, [Event.queryInstalled "n", Event.queryOfficial "n"] =
      alias_query_schedule envC7 "n" ++ rest) :=
  ⟨⟨by decide, by decide⟩,
   c7_query_precedence envC7 9 emptyStore
     (okOr (emptyStore, []) (get_package_recursive envC7 10 "n" emptyStore)).1 "n"
     [Event.queryInstalled "n", Event.queryOfficial "n"] (by decide) (by decide)⟩

/-! # C6 -/

/-- C6: resolving the provider-path cycle of `envC6` exhausts every amount
of fuel: the provider-branch success (source lines 419-432) registers
nothing in `pkg_dict`, so the `x -> y -> x -> ...` recursion never meets
the already-registered short-circuit and runs forever — the claim says
resolution terminates for every graph because each node is registered
before its dependencies are walked. -/
theorem c6_provider_cycle_never_terminates :
    ∀ fuel, get_package_recursive envC6 fuel "x" emptyStore = Except.error RErr.fuelOut := by
  have hgcx : get_cached_package envC6 "x" = Except.ok (none, []) := rfl
  have hgcy : get_cached_package envC6 "y" = Except.ok (none, []) := rfl
  have hix : envC6.installedCanonical "x" = none := rfl
  have hiy : envC6.installedCanonical "y" = none := rfl
  have hox : envC6.officialCanonical "x" = none := rfl
  have hoy : envC6.officialCanonical "y" = none := rfl
  have hpx : envC6.providers "x" = some ["xp"] := rfl
  have hpy : envC6.providers "y" = some ["yp"] := rfl
  have hsx : scanProviders envC6 ["xp"] =
      Except.ok (some nodeXp, [Event.pacmanIsInstalled "xp"]) := rfl
  have hsy : scanProviders envC6 ["yp"] =
      Except.ok (some nodeYp, [Event.pacmanIsInstalled "yp"]) := rfl
  have hdrx : determine_repository envC6 nodeXp = nodeXpR := rfl
  have hdry : determine_repository envC6 nodeYp = nodeYpR := rfl
  have hdpx : determine_package_info envC6 nodeXpR = (nodeXpD, [Event.queryAlias "y"]) := rfl
  have hdpy : determine_package_info envC6 nodeYpR = (nodeYpD, [Event.queryAlias "x"]) := rfl
  have key : ∀ n : Nat, ∀ st : PkgStore,
      lookupName st "x" = none → lookupName st "y" = none →
      (resolveGo envC6 n (RTask.pkg "x") st = Except.error RErr.fuelOut ∧
       resolveGo envC6 n (RTask.pkg "y") st = Except.error RErr.fuelOut ∧
       resolveGo envC6 n (RTask.deps ["x"]) st = Except.error RErr.fuelOut ∧
       resolveGo envC6 n (RTask.deps ["y"]) st = Except.error RErr.fuelOut ∧
       (∀ idx, getNode st idx = nodeXp →
         resolveGo envC6 n (RTask.tail idx) st = Except.error RErr.fuelOut) ∧
       (∀ idx, getNode st idx = nodeYp →
         resolveGo envC6 n (RTask.tail idx) st = Except.error RErr.fuelOut)) := by
    intro n
    induction n with
    | zero =>
      intro st _ _
      exact ⟨rfl, rfl, rfl, rfl, fun _ _ => rfl, fun _ _ => rfl⟩
    | succ n ih =>
      intro st hx hy
      refine ⟨?_, ?_, ?_, ?_, ?_, ?_⟩
      · simp only [resolveGo, hx, Option.isSome_none, Bool.false_eq_true, if_false]
        rw [hgcx]
        dsimp only
        rw [hix]
        dsimp only
        rw [hox]
        dsimp only
        rw [hpx]
        dsimp only
        rw [hsx]
        dsimp only
        have htail := (ih (addNode st nodeXp).1
          (by rw [lookupName_addNode]; exact hx)
          (by rw [lookupName_addNode]; exact hy)).2.2.2.2.1
          (addNode st nodeXp).2 (getNode_addNode st nodeXp)
        rw [htail]
      · simp only [resolveGo, hy, Option.isSome_none, Bool.false_eq_true, if_false]
        rw [hgcy]
        dsimp only
        rw [hiy]
        dsimp only
        rw [hoy]
        dsimp only
        rw [hpy]
        dsimp only
        rw [hsy]
        dsimp only
        have htail := (ih (addNode st nodeYp).1
          (by rw [lookupName_addNode]; exact hx)
          (by rw [lookupName_addNode]; exact hy)).2.2.2.2.2
          (addNode st nodeYp).2 (getNode_addNode st nodeYp)
        rw [htail]
      · simp only [resolveGo]
        rw [(ih st hx hy).1]
      · simp only [resolveGo]
        rw [(ih st hx hy).2.1]
      · intro idx hidx
        simp only [resolveGo]
        rw [hidx, hdrx, hdpx]
        dsimp only
        rw [show nodeXpD.errorInfo.isSome = false from rfl,
          show nodeXpD.dependencies = ["y"] from rfl]
        simp only [Bool.false_eq_true, if_false]
        rw [if_pos (show nodeXpD.repository = some PackageRepository.localRepo from rfl)]
        have hdeps := (ih (updateNode st idx nodeXpD)
          (by rw [lookupName_updateNode]; exact hx)
          (by rw [lookupName_updateNode]; exact hy)).2.2.2.1
        rw [hdeps]
      · intro idx hidx
        simp only [resolveGo]
        rw [hidx, hdry, hdpy]
        dsimp only
        rw [show nodeYpD.errorInfo.isSome = false from rfl,
          show nodeYpD.dependencies = ["x"] from rfl]
        simp only [Bool.false_eq_true, if_false]
        rw [if_pos (show nodeYpD.repository = some PackageRepository.localRepo from rfl)]
        have hdeps := (ih (updateNode st idx nodeYpD)
          (by rw [lookupName_updateNode]; exact hx)
          (by rw [lookupName_updateNode]; exact hy)).2.2.1
        rw [hdeps]
  intro fuel
  exact (key fuel emptyStore rfl rfl).1

end InstallPacman
